import Mathlib

/-!
# Verification of the chat server's presence and routing engine

Shallow embedding of `src/server.js`: the in-memory session registry
(`onlineUsers`), the derived room-occupant view (`getUsersInRoom`), and the
socket event handlers (`registerUser`, `joinRoom`, `leaveRoom`,
`groupMessage`, `privateMessage`, `typing`, `stopTyping`, `disconnect`),
together with the private-message history query of the REST route
`GET /api/messages/private/:user1/:user2`.

Modelling choices:
* `onlineUsers` is a JS object keyed by socket id; JS objects preserve key
  insertion order for `Object.keys` / `Object.values`, and assigning to an
  existing key keeps its position.  It is embedded as an association list
  `List (String × UserEntry)` where `setEntry` replaces in place when the
  key exists and appends otherwise.
* JS truthiness of the optional strings `user.room` and `data.to_user`
  (`null`/`undefined` and `""` are falsy) is embedded as `truthyOpt`.
* Timestamps (`new Date()` / the mongoose-assigned `date_sent`) are a
  `Nat` parameter `now` supplied to the handler invocation.
* `await msg.save()` either succeeds (flag `saveOk = true`) or rejects;
  a rejection, like any thrown JS exception, is an `Except.error`.
* Socket.io delivery targets are reified as `Target`; `io.to(room)` reaches
  every connection whose session is in the room (registry and transport
  membership coincide: `socket.join`/`socket.leave` are paired with every
  `user.room` mutation), and `socket.to(room)` reaches them minus the sender.
-/

namespace ChatApp

/-- One value of the `onlineUsers` map: `{ username, room }`. -/
structure UserEntry where
  username : String
  room : Option String
deriving DecidableEq, Repr

/-- The `onlineUsers` object: an insertion-ordered map from socket id. -/
abbrev Registry := List (String × UserEntry)

/-- JS truthiness of an optional string: `null`/`undefined` and `""` are falsy. -/
def truthyOpt : Option String → Bool
  | none => false
  | some s => !(s == "")

/-- `onlineUsers[socketId]` (read). -/
def lookup (reg : Registry) (cid : String) : Option UserEntry :=
  (reg.find? (fun p => p.1 == cid)).map Prod.snd

/-- Whether the key is present. -/
def hasKey (reg : Registry) (cid : String) : Bool :=
  reg.any (fun p => p.1 == cid)

/-- `onlineUsers[socketId] = e`: overwrite in place, else insert at the end
(JS object key order semantics). -/
def setEntry (reg : Registry) (cid : String) (e : UserEntry) : Registry :=
  if hasKey reg cid then
    reg.map (fun p => if p.1 == cid then (cid, e) else p)
  else
    reg ++ [(cid, e)]

/-- `user.room = r` for the session at `cid` (in-place mutation of the entry). -/
def setRoom (reg : Registry) (cid : String) (r : Option String) : Registry :=
  reg.map (fun p => if p.1 == cid then (p.1, { p.2 with room := r }) else p)

/-- `delete onlineUsers[socketId]`. -/
def removeEntry (reg : Registry) (cid : String) : Registry :=
  reg.filter (fun p => !(p.1 == cid))

/-- `getUsersInRoom(room)` of `src/server.js` lines 266-270:
`Object.values(onlineUsers).filter(u => u.room === room).map(u => u.username)`. -/
def getUsersInRoom (reg : Registry) (room : String) : List String :=
  ((reg.map Prod.snd).filter (fun u => u.room == some room)).map (fun u => u.username)

/-- `Object.keys(onlineUsers).find(id => onlineUsers[id].username === name)`:
the first socket id, in insertion order, whose session has this username. -/
def findRecipient (reg : Registry) (name : String) : Option String :=
  (reg.find? (fun p => p.2.username == name)).map Prod.fst

/-- A socket.io delivery target. -/
inductive Target where
  /-- `io.to(socketId).emit` / `socket.emit`: one connection. -/
  | toConn (cid : String)
  /-- `io.to(room).emit`: every occupant of the room, sender included. -/
  | toRoom (room : String)
  /-- `socket.to(room).emit`: every occupant except the sender. -/
  | exceptSender (room : String) (sender : String)
deriving DecidableEq, Repr

/-- The connection ids a target delivers to, given the registry (registry and
transport room membership coincide). -/
def targetConns (reg : Registry) : Target → List String
  | .toConn cid => [cid]
  | .toRoom room => (reg.filter (fun p => p.2.room == some room)).map Prod.fst
  | .exceptSender room sender =>
      ((reg.filter (fun p => p.2.room == some room)).map Prod.fst).filter
        (fun c => !(c == sender))

/-- One outbound socket event with its payload. -/
inductive Emit where
  /-- `roomMessage { from_user, message, date_sent }`. -/
  | roomMessage (target : Target) (from_user message : String) (date_sent : Nat)
  /-- `updateUsers <occupant list>`. -/
  | updateUsers (target : Target) (users : List String)
  /-- `privateMessage { from_user, to_user, message, date_sent }`. -/
  | privateMsg (target : Target) (from_user to_user message : String) (date_sent : Nat)
  /-- `typing { from_user }`. -/
  | typingNotice (target : Target) (from_user : String)
  /-- `stopTyping { from_user }`. -/
  | stopTypingNotice (target : Target) (from_user : String)
deriving DecidableEq, Repr

/-- A persisted `GroupMessage` document. -/
structure GroupRecord where
  from_user : String
  room : String
  message : String
  date_sent : Nat
deriving DecidableEq, Repr

/-- A persisted `PrivateMessage` document. -/
structure PrivateRecord where
  from_user : String
  to_user : String
  message : String
  date_sent : Nat
deriving DecidableEq, Repr

/-- The History Store: the two MongoDB collections. -/
structure Store where
  groupMsgs : List GroupRecord
  privateMsgs : List PrivateRecord
deriving DecidableEq, Repr

/-- `socket.on('registerUser', ...)`, lines 112-115: unconditionally
`onlineUsers[socket.id] = { username, room: null }`. -/
def registerUser (reg : Registry) (cid username : String) : Registry × List Emit :=
  (setEntry reg cid { username := username, room := none }, [])

/-- `socket.on('joinRoom', ...)`, lines 118-142.  The implicit-leave
broadcasts are computed on the registry BEFORE `user.room = room` runs, the
join-side broadcasts after. -/
def joinRoom (reg : Registry) (cid room : String) (now : Nat) : Registry × List Emit :=
  match lookup reg cid with
  | none => (reg, [])
  | some user =>
    let leaveEmits :=
      match user.room with
      | some oldRoom =>
        if oldRoom == "" then []
        else
          [Emit.roomMessage (Target.toRoom oldRoom) "System"
             (user.username ++ " has left the room") now,
           Emit.updateUsers (Target.toRoom oldRoom) (getUsersInRoom reg oldRoom)]
      | none => []
    let reg2 := setRoom reg cid (some room)
    (reg2,
     leaveEmits ++
     [Emit.roomMessage (Target.toRoom room) "System"
        (user.username ++ " has joined the room") now,
      Emit.updateUsers (Target.toRoom room) (getUsersInRoom reg2 room)])

/-- `socket.on('leaveRoom', ...)`, lines 145-158.  `user.room = null` runs
BEFORE the broadcasts, so the occupant list here excludes the leaver. -/
def leaveRoom (reg : Registry) (cid : String) (now : Nat) : Registry × List Emit :=
  match lookup reg cid with
  | none => (reg, [])
  | some user =>
    match user.room with
    | none => (reg, [])
    | some room =>
      if room == "" then (reg, [])
      else
        let reg2 := setRoom reg cid none
        (reg2,
         [Emit.roomMessage (Target.toRoom room) "System"
            (user.username ++ " has left the room") now,
          Emit.updateUsers (Target.toRoom room) (getUsersInRoom reg2 room)])

/-- `socket.on('groupMessage', ...)`, lines 161-177: guard, persist
(`await msg.save()`), then broadcast the persisted record (with the
store-assigned `msg.date_sent`) to the room.  A rejected save aborts the
handler before any emit. -/
def groupMessage (reg : Registry) (store : Store) (cid text : String)
    (now : Nat) (saveOk : Bool) : Except String (Registry × Store × List Emit) :=
  match lookup reg cid with
  | none => .ok (reg, store, [])
  | some user =>
    match user.room with
    | none => .ok (reg, store, [])
    | some room =>
      if room == "" then .ok (reg, store, [])
      else if saveOk then
        .ok (reg,
             { store with groupMsgs := store.groupMsgs ++ [⟨user.username, room, text, now⟩] },
             [Emit.roomMessage (Target.toRoom room) user.username text now])
      else
        .error "StoreFailure: GroupMessage save rejected"

/-- `socket.on('privateMessage', ...)`, lines 180-213: guard on the sender
session only, persist, deliver to the first matching recipient connection if
any, and always self-echo to the sender. -/
def privateMessage (reg : Registry) (store : Store) (cid to_user text : String)
    (now : Nat) (saveOk : Bool) : Except String (Registry × Store × List Emit) :=
  match lookup reg cid with
  | none => .ok (reg, store, [])
  | some user =>
    if saveOk then
      let deliver :=
        match findRecipient reg to_user with
        | some rid => [Emit.privateMsg (Target.toConn rid) user.username to_user text now]
        | none => []
      .ok (reg,
           { store with privateMsgs := store.privateMsgs ++ [⟨user.username, to_user, text, now⟩] },
           deliver ++ [Emit.privateMsg (Target.toConn cid) user.username to_user text now])
    else
      .error "StoreFailure: PrivateMessage save rejected"

/-- `socket.on('typing', ...)`, lines 216-232.  The payload may be absent
(`data = none`); the code reads `data.to_user` WITHOUT a `data &&` guard, so
an absent payload throws a TypeError. -/
def typing (reg : Registry) (cid : String) (data : Option (Option String)) :
    Except String (List Emit) :=
  match lookup reg cid with
  | none => .ok []
  | some user =>
    match data with
    | none => .error "TypeError: cannot read to_user of undefined"
    | some to? =>
      if truthyOpt to? then
        match to? with
        | some toUser =>
          match findRecipient reg toUser with
          | some rid => .ok [Emit.typingNotice (Target.toConn rid) user.username]
          | none => .ok []
        | none => .ok []
      else if truthyOpt user.room then
        match user.room with
        | some room => .ok [Emit.typingNotice (Target.exceptSender room cid) user.username]
        | none => .ok []
      else .ok []

/-- `socket.on('stopTyping', ...)`, lines 234-248.  Identical targeting to
`typing`, but the guard is `data && data.to_user`, so an absent payload
falls through to the room branch instead of throwing. -/
def stopTyping (reg : Registry) (cid : String) (data : Option (Option String)) :
    Except String (List Emit) :=
  match lookup reg cid with
  | none => .ok []
  | some user =>
    if (match data with
        | none => false
        | some to? => truthyOpt to?) then
      match data with
      | some (some toUser) =>
        match findRecipient reg toUser with
        | some rid => .ok [Emit.stopTypingNotice (Target.toConn rid) user.username]
        | none => .ok []
      | _ => .ok []
    else if truthyOpt user.room then
      match user.room with
      | some room => .ok [Emit.stopTypingNotice (Target.exceptSender room cid) user.username]
      | none => .ok []
    else .ok []

/-- `socket.on('disconnect', ...)`, lines 251-263: the broadcasts (computed
while the entry is still present) happen first, then
`delete onlineUsers[socket.id]` runs unconditionally. -/
def disconnect (reg : Registry) (cid : String) (now : Nat) : Registry × List Emit :=
  let emits :=
    match lookup reg cid with
    | some user =>
      match user.room with
      | some room =>
        if room == "" then []
        else
          [Emit.roomMessage (Target.toRoom room) "System"
             (user.username ++ " has disconnected") now,
           Emit.updateUsers (Target.toRoom room) (getUsersInRoom reg room)]
      | none => []
    | none => []
  (removeEntry reg cid, emits)

/-- `GET /api/messages/private/:user1/:user2`, lines 91-104:
filter by `$or [{from:u1,to:u2},{from:u2,to:u1}]`, sort by `date_sent`
ascending, `limit(100)`. -/
def queryPrivate (msgs : List PrivateRecord) (user1 user2 : String) :
    List PrivateRecord :=
  (((msgs.filter (fun m =>
      (m.from_user == user1 && m.to_user == user2) ||
      (m.from_user == user2 && m.to_user == user1))).mergeSort
      (fun a b => a.date_sent ≤ b.date_sent)).take 100 : List PrivateRecord)

/-- The router: one inbound socket event. -/
inductive Event where
  | registerUser (username : String)
  | joinRoom (room : String)
  | leaveRoom
  | groupMessage (text : String)
  | privateMessage (to_user text : String)
  | typing (data : Option (Option String))
  | stopTyping (data : Option (Option String))
  | disconnect
deriving DecidableEq, Repr

/-- Dispatch of one inbound event from connection `cid` to its handler. -/
def step (reg : Registry) (store : Store) (cid : String) (e : Event)
    (now : Nat) (saveOk : Bool) : Except String (Registry × Store × List Emit) :=
  match e with
  | .registerUser u =>
      let r := registerUser reg cid u
      .ok (r.1, store, r.2)
  | .joinRoom room =>
      let r := joinRoom reg cid room now
      .ok (r.1, store, r.2)
  | .leaveRoom =>
      let r := leaveRoom reg cid now
      .ok (r.1, store, r.2)
  | .groupMessage t => groupMessage reg store cid t now saveOk
  | .privateMessage to_user t => privateMessage reg store cid to_user t now saveOk
  | .typing d => (typing reg cid d).map (fun es => (reg, store, es))
  | .stopTyping d => (stopTyping reg cid d).map (fun es => (reg, store, es))
  | .disconnect =>
      let r := disconnect reg cid now
      .ok (r.1, store, r.2)

/-- The registry after a handler ran: a thrown exception leaves the shared
state as it was (none of the handlers mutate the registry before a throw). -/
def regAfter (res : Except String (Registry × Store × List Emit))
    (fallback : Registry) : Registry :=
  match res with
  | .ok (r, _, _) => r
  | .error _ => fallback

/-- The store after a handler ran (a rejected save persists nothing). -/
def storeAfter (res : Except String (Registry × Store × List Emit))
    (fallback : Store) : Store :=
  match res with
  | .ok (_, s, _) => s
  | .error _ => fallback

/-- The emits of a handler run; a thrown exception emitted nothing. -/
def emitsOf : Except String (Registry × Store × List Emit) → List Emit
  | .ok (_, _, es) => es
  | .error _ => []

/-- Run a trace of `(connectionId, event)` pairs from a state (all saves
succeed, all timestamps 0): reachability of registry/store states. -/
def run (reg : Registry) (store : Store) : List (String × Event) → Registry × Store
  | [] => (reg, store)
  | (cid, e) :: rest =>
      run (regAfter (step reg store cid e 0 true) reg)
          (storeAfter (step reg store cid e 0 true) store) rest

/-- Is this emit a `roomMessage` (the system departure/arrival notices and
chat messages share this event tag)? -/
def isRoomMessage : Emit → Bool
  | .roomMessage _ _ _ _ => true
  | _ => false

/-- Is this emit an `updateUsers` occupant-list update? -/
def isOccupantUpdate : Emit → Bool
  | .updateUsers _ _ => true
  | _ => false

/-! ## Registry lemmas -/

theorem lookup_nil (cid : String) : lookup ([] : Registry) cid = none := rfl

theorem lookup_cons (p : String × UserEntry) (reg : Registry) (cid : String) :
    lookup (p :: reg) cid = if p.1 == cid then some p.2 else lookup reg cid := by
  unfold lookup
  rw [List.find?_cons]
  split <;> simp_all

theorem lookup_mem {reg : Registry} {cid : String} {u : UserEntry}
    (h : lookup reg cid = some u) : (cid, u) ∈ reg := by
  induction reg with
  | nil => simp [lookup_nil] at h
  | cons p tl ih =>
    rw [lookup_cons] at h
    by_cases hp : p.1 == cid
    · simp [hp] at h
      have : p = (cid, u) := by
        cases p
        simp_all [beq_iff_eq]
      simp [this]
    · simp [hp] at h
      exact List.mem_cons_of_mem _ (ih h)

theorem lookup_map_replace {cid c' : String} {e : UserEntry} (h : ¬(c' = cid))
    (reg : Registry) :
    lookup (reg.map (fun p => if p.1 == cid then (cid, e) else p)) c' = lookup reg c' := by
  have hcc : ¬(cid = c') := fun hh => h hh.symm
  induction reg with
  | nil => rfl
  | cons p tl ih =>
    by_cases hp : p.1 = cid <;> by_cases hc : p.1 = c' <;>
      simp_all [lookup_cons]

theorem lookup_append_single {cid c' : String} {e : UserEntry} (h : ¬(c' = cid))
    (reg : Registry) :
    lookup (reg ++ [(cid, e)]) c' = lookup reg c' := by
  have hcc : ¬(cid = c') := fun hh => h hh.symm
  induction reg with
  | nil => simp [lookup_cons, lookup_nil, hcc]
  | cons p tl ih =>
    by_cases hc : p.1 = c' <;> simp_all [lookup_cons]

theorem lookup_setRoom_other {reg : Registry} {cid : String} {r : Option String}
    {c' : String} (h : ¬(c' = cid)) :
    lookup (setRoom reg cid r) c' = lookup reg c' := by
  have hcc : ¬(cid = c') := fun hh => h hh.symm
  induction reg with
  | nil => rfl
  | cons p tl ih =>
    by_cases hp : p.1 = cid <;> by_cases hc : p.1 = c' <;>
      simp_all [setRoom, lookup_cons]

theorem lookup_setEntry_other {reg : Registry} {cid c' : String} {e : UserEntry}
    (h : ¬(c' = cid)) :
    lookup (setEntry reg cid e) c' = lookup reg c' := by
  unfold setEntry
  split
  · exact lookup_map_replace h reg
  · exact lookup_append_single h reg

theorem lookup_removeEntry_other {reg : Registry} {cid c' : String}
    (h : ¬(c' = cid)) :
    lookup (removeEntry reg cid) c' = lookup reg c' := by
  have hcc : ¬(cid = c') := fun hh => h hh.symm
  induction reg with
  | nil => rfl
  | cons p tl ih =>
    by_cases hp : p.1 = cid <;> by_cases hc : p.1 = c' <;>
      simp_all [removeEntry, List.filter_cons, lookup_cons]

theorem lookup_removeEntry_self (reg : Registry) (cid : String) :
    lookup (removeEntry reg cid) cid = none := by
  induction reg with
  | nil => rfl
  | cons p tl ih =>
    by_cases hp : p.1 = cid <;> simp_all [removeEntry, List.filter_cons, lookup_cons]

theorem removeEntry_removeEntry (reg : Registry) (cid : String) :
    removeEntry (removeEntry reg cid) cid = removeEntry reg cid := by
  simp [removeEntry, List.filter_filter]

theorem lookup_setRoom_self (reg : Registry) (cid : String) (r : Option String) :
    lookup (setRoom reg cid r) cid =
      (lookup reg cid).map (fun u => { u with room := r }) := by
  induction reg with
  | nil => rfl
  | cons p tl ih =>
    by_cases hp : p.1 = cid <;> simp_all [setRoom, lookup_cons]

/-! ## Occupant-view and recipient-resolution lemmas -/

theorem mem_getUsersInRoom {reg : Registry} {room n : String} :
    n ∈ getUsersInRoom reg room ↔
      ∃ p ∈ reg, p.2.room = some room ∧ p.2.username = n := by
  simp only [getUsersInRoom, List.mem_map, List.mem_filter]
  constructor
  · rintro ⟨u, ⟨⟨p, hp, rfl⟩, hroom⟩, hname⟩
    exact ⟨p, hp, by simpa using hroom, hname⟩
  · rintro ⟨p, hp, hroom, hname⟩
    exact ⟨p.2, ⟨⟨p, hp, rfl⟩, by simpa using hroom⟩, hname⟩

theorem getUsersInRoom_eq_nil {reg : Registry} {room : String}
    (h : ∀ p ∈ reg, ¬(p.2.room = some room)) : getUsersInRoom reg room = [] := by
  unfold getUsersInRoom
  rw [List.filter_eq_nil_iff.2, List.map_nil]
  intro u hu
  rcases List.mem_map.1 hu with ⟨p, hp, rfl⟩
  simpa using h p hp

theorem findRecipient_first {pre post : Registry} {k : String} {v : UserEntry}
    {name : String} (hv : v.username = name)
    (hpre : ∀ p ∈ pre, ¬(p.2.username = name)) :
    findRecipient (pre ++ (k, v) :: post) name = some k := by
  induction pre with
  | nil => simp [findRecipient, List.find?_cons, hv]
  | cons q tl ih =>
    have hq : ¬(q.2.username = name) := hpre q (List.mem_cons_self q tl)
    have htl : ∀ p ∈ tl, ¬(p.2.username = name) :=
      fun p hp => hpre p (List.mem_cons_of_mem q hp)
    simpa [findRecipient, List.find?_cons, hq] using ih htl

theorem mem_targetConns_toRoom {reg : Registry} {cid : String} {u : UserEntry}
    {room : String} (hm : (cid, u) ∈ reg) (hr : u.room = some room) :
    cid ∈ targetConns reg (Target.toRoom room) := by
  simp only [targetConns, List.mem_map, List.mem_filter]
  exact ⟨(cid, u), ⟨hm, by simp [hr]⟩, rfl⟩

theorem mem_targetConns_toRoom_iff {reg : Registry} {c room : String} :
    c ∈ targetConns reg (Target.toRoom room) ↔
      ∃ p ∈ reg, p.1 = c ∧ p.2.room = some room := by
  simp only [targetConns, List.mem_map, List.mem_filter]
  constructor
  · rintro ⟨p, ⟨hp, hroom⟩, rfl⟩
    exact ⟨p, hp, rfl, by simpa using hroom⟩
  · rintro ⟨p, hp, rfl, hroom⟩
    exact ⟨p, ⟨hp, by simpa using hroom⟩, rfl⟩

theorem not_mem_targetConns_exceptSender (reg : Registry) (room sender : String) :
    ¬(sender ∈ targetConns reg (Target.exceptSender room sender)) := by
  simp [targetConns, List.mem_filter]

theorem targetConns_exceptSender_eq (reg : Registry) (room sender : String) :
    targetConns reg (Target.exceptSender room sender) =
      (targetConns reg (Target.toRoom room)).filter (fun c => !(c == sender)) := rfl

/-! ## Handlers that never touch the registry -/

theorem groupMessage_reg_unchanged (reg : Registry) (store : Store)
    (cid text : String) (now : Nat) (saveOk : Bool) :
    regAfter (groupMessage reg store cid text now saveOk) reg = reg := by
  unfold groupMessage regAfter
  rcases lookup reg cid with _ | u
  · rfl
  · rcases hu : u.room with _ | room
    · simp [hu]
    · by_cases hr : room == "" <;> by_cases hs : saveOk <;> simp [hu, hr, hs]

theorem privateMessage_reg_unchanged (reg : Registry) (store : Store)
    (cid to_user text : String) (now : Nat) (saveOk : Bool) :
    regAfter (privateMessage reg store cid to_user text now saveOk) reg = reg := by
  unfold privateMessage regAfter
  rcases lookup reg cid with _ | u
  · rfl
  · by_cases hs : saveOk <;> simp [hs]

theorem typing_reg_unchanged (reg : Registry) (store : Store) (cid : String)
    (data : Option (Option String)) :
    regAfter ((typing reg cid data).map (fun es => (reg, store, es))) reg = reg := by
  rcases typing reg cid data with e | es <;> rfl

theorem stopTyping_reg_unchanged (reg : Registry) (store : Store) (cid : String)
    (data : Option (Option String)) :
    regAfter ((stopTyping reg cid data).map (fun es => (reg, store, es))) reg = reg := by
  rcases stopTyping reg cid data with e | es <;> rfl

theorem joinRoom_reg (reg : Registry) (cid room : String) (now : Nat) :
    (joinRoom reg cid room now).1 =
      (match lookup reg cid with
       | none => reg
       | some _ => setRoom reg cid (some room)) := by
  unfold joinRoom
  rcases lookup reg cid with _ | u
  · rfl
  · rcases hu : u.room with _ | oldRoom
    · simp [hu]
    · by_cases hr : oldRoom == "" <;> simp [hu, hr]

theorem leaveRoom_reg (reg : Registry) (cid : String) (now : Nat) :
    (leaveRoom reg cid now).1 = reg ∨
      (leaveRoom reg cid now).1 = setRoom reg cid none := by
  unfold leaveRoom
  rcases lookup reg cid with _ | u
  · exact Or.inl rfl
  · rcases hu : u.room with _ | room
    · simp [hu]
    · by_cases hr : room == "" <;> simp [hu, hr]


/-! ## Claim theorems -/

/-- C1: the claim asserts that the occupant list broadcast to the old room
during `joinRoom`'s implicit leave no longer contains the moving session's
displayName.  Evaluating the handler at the failing input — registry
`{s1 ↦ (alice, room "sports")}` processing `joinRoom("nodeJS")` — shows the
code computes that list BEFORE `user.room = room` runs, so the `updateUsers`
payload sent to the old room `"sports"` is `["alice"]`: it still contains the
mover.  The registry transition itself is atomic (afterwards alice is in
exactly the new room). -/
theorem c1_joinRoom_old_room_list_still_contains_mover :
    (joinRoom [("s1", ⟨"alice", some "sports"⟩)] "s1" "nodeJS" 5).2 =
      [Emit.roomMessage (Target.toRoom "sports") "System" "alice has left the room" 5,
       Emit.updateUsers (Target.toRoom "sports") ["alice"],
       Emit.roomMessage (Target.toRoom "nodeJS") "System" "alice has joined the room" 5,
       Emit.updateUsers (Target.toRoom "nodeJS") ["alice"]] ∧
    (joinRoom [("s1", ⟨"alice", some "sports"⟩)] "s1" "nodeJS" 5).1 =
      [("s1", ⟨"alice", some "nodeJS"⟩)] :=
  ⟨rfl, rfl⟩

/-- C2 counterexample: duplicate displayNames are reachable (`registerUser`
does not check uniqueness), and they break the per-session iff.  After the
trace `c1: registerUser("alice"); c1: joinRoom("sports");
c2: registerUser("alice")`, session `c2` has `currentRoom = null`, yet
`occupants("sports")` contains `c2`'s displayName `"alice"` (contributed by
`c1`). -/
theorem c2_duplicate_names_counterexample :
    lookup (run [] ⟨[], []⟩
        [("c1", Event.registerUser "alice"), ("c1", Event.joinRoom "sports"),
         ("c2", Event.registerUser "alice")]).1 "c2" = some ⟨"alice", none⟩ ∧
    "alice" ∈ getUsersInRoom (run [] ⟨[], []⟩
        [("c1", Event.registerUser "alice"), ("c1", Event.joinRoom "sports"),
         ("c2", Event.registerUser "alice")]).1 "sports" ∧
    ¬((⟨"alice", none⟩ : UserEntry).room = some "sports") := by
  refine ⟨rfl, ?_, by decide⟩
  decide

/-- C4: the claim asserts no handler raises an exception, in particular on a
`typing` event with an absent payload.  The `typing` handler reads
`data.to_user` without the `data &&` guard that `stopTyping` has, so from a
registered session an absent payload throws a TypeError (while the same
input to `stopTyping` is handled). -/
theorem c4_typing_missing_payload_throws :
    typing [("s1", ⟨"alice", none⟩)] "s1" none =
      .error "TypeError: cannot read to_user of undefined" ∧
    stopTyping [("s1", ⟨"alice", none⟩)] "s1" none = .ok [] :=
  ⟨rfl, rfl⟩

/-- C7 counterexample: in direct mode the notice CAN reach the sender.  With
registry `{s1 ↦ (alice, no room)}`, a `typing {to_user: "alice"}` event from
`s1` resolves the recipient to `s1` itself (first username match in registry
order), so the notice is delivered to the sender's own connection. -/
theorem c7_self_target_typing_reaches_sender :
    typing [("s1", ⟨"alice", none⟩)] "s1" (some (some "alice")) =
      .ok [Emit.typingNotice (Target.toConn "s1") "alice"] ∧
    targetConns [("s1", ⟨"alice", none⟩)] (Target.toConn "s1") = ["s1"] :=
  ⟨rfl, rfl⟩

/-- C8 counterexample: a repeated `registerUser` for the same connectionId
overwrites the entry, changing the displayName observed by `lookup` (and
resetting the room).  Trace: `c1: registerUser("alice");
c1: joinRoom("sports"); c1: registerUser("bob")` ends with `c1`'s session
being `(bob, no room)`, not `(alice, ...)`. -/
theorem c8_repeated_register_changes_displayName :
    lookup (run [] ⟨[], []⟩
        [("c1", Event.registerUser "alice"), ("c1", Event.joinRoom "sports"),
         ("c1", Event.registerUser "bob")]).1 "c1" = some ⟨"bob", none⟩ := by
  rfl


/-- C2 (amended): for any registry whatsoever — duplicate displayNames
included — `occupants(R)` contains the displayName of every session whose
`currentRoom = R`, and `occupants` of a room no session references is the
empty list, never an error; the converse — and so the claimed per-session
iff — additionally holds whenever no two sessions share a displayName
(`registerUser` does not enforce that, see the counterexample). -/
theorem c2_occupants_iff_of_unique_names
    (reg : Registry) (room cid : String) (u : UserEntry) :
    (lookup reg cid = some u → u.room = some room →
      u.username ∈ getUsersInRoom reg room) ∧
    ((∀ p ∈ reg, ¬(p.2.room = some room)) → getUsersInRoom reg room = []) ∧
    (lookup reg cid = some u →
      (∀ p ∈ reg, ∀ q ∈ reg, p.2.username = q.2.username → p = q) →
      (u.username ∈ getUsersInRoom reg room ↔ u.room = some room)) := by
  refine ⟨?_, getUsersInRoom_eq_nil, ?_⟩
  · intro h hr
    exact mem_getUsersInRoom.2 ⟨(cid, u), lookup_mem h, hr, rfl⟩
  · intro h huniq
    constructor
    · intro hm
      rcases mem_getUsersInRoom.1 hm with ⟨p, hp, hroom, hname⟩
      have hpq : p = (cid, u) := huniq p hp (cid, u) (lookup_mem h) hname
      rw [hpq] at hroom
      exact hroom
    · intro hr
      exact mem_getUsersInRoom.2 ⟨(cid, u), lookup_mem h, hr, rfl⟩

/-- Witness for `c2_occupants_iff_of_unique_names`: the containment
direction at a duplicate-name registry (two sessions named "alice"), the
empty-room clause at a registry not referencing the room, and the iff at a
registry with distinct displayNames. -/
theorem c2_occupants_iff_witness :
    "alice" ∈ getUsersInRoom
        [("c1", ⟨"alice", some "sports"⟩), ("c2", ⟨"alice", none⟩)] "sports" ∧
    getUsersInRoom [("c2", ⟨"bob", none⟩)] "sports" = [] ∧
    ("alice" ∈ getUsersInRoom
        [("c1", ⟨"alice", some "sports"⟩), ("c2", ⟨"bob", none⟩)] "sports" ↔
      (⟨"alice", some "sports"⟩ : UserEntry).room = some "sports") :=
  ⟨(c2_occupants_iff_of_unique_names
      [("c1", ⟨"alice", some "sports"⟩), ("c2", ⟨"alice", none⟩)]
      "sports" "c1" ⟨"alice", some "sports"⟩).1 rfl rfl,
   (c2_occupants_iff_of_unique_names
      [("c2", ⟨"bob", none⟩)] "sports" "c2" ⟨"bob", none⟩).2.1 (by decide),
   (c2_occupants_iff_of_unique_names
      [("c1", ⟨"alice", some "sports"⟩), ("c2", ⟨"bob", none⟩)]
      "sports" "c1" ⟨"alice", some "sports"⟩).2.2 rfl (by decide)⟩

/-- C3: from a registered session with a (nonempty-named) current room,
`groupMessage` with a successful save appends exactly the record
`{fromUser, room, message, sentAt := now}` to the History Store and emits a
single `roomMessage` carrying the store-assigned timestamp to the whole
room — a target that includes the sender and exactly the room's occupants;
with a failing save the handler propagates the store error and emits
nothing (and the store is unchanged). -/
theorem c3_groupMessage_persist_then_broadcast
    (reg : Registry) (store : Store) (cid text : String) (now : Nat)
    (u : UserEntry) (r : String)
    (h : lookup reg cid = some u) (hr : u.room = some r) (hne : ¬(r = "")) :
    groupMessage reg store cid text now true =
      .ok (reg,
           { store with groupMsgs := store.groupMsgs ++ [⟨u.username, r, text, now⟩] },
           [Emit.roomMessage (Target.toRoom r) u.username text now]) ∧
    groupMessage reg store cid text now false =
      .error "StoreFailure: GroupMessage save rejected" ∧
    emitsOf (groupMessage reg store cid text now false) = [] ∧
    storeAfter (groupMessage reg store cid text now false) store = store ∧
    cid ∈ targetConns reg (Target.toRoom r) ∧
    (∀ c' v, lookup reg c' = some v → v.room = some r →
      c' ∈ targetConns reg (Target.toRoom r)) := by
  have hbe : (r == "") = false := by simp [hne]
  refine ⟨?_, ?_, ?_, ?_, ?_, ?_⟩
  · simp [groupMessage, h, hr, hbe]
  · simp [groupMessage, h, hr, hbe]
  · simp [groupMessage, h, hr, hbe, emitsOf]
  · simp [groupMessage, h, hr, hbe, storeAfter]
  · exact mem_targetConns_toRoom (lookup_mem h) hr
  · exact fun c' v h' hr' => mem_targetConns_toRoom (lookup_mem h') hr'

/-- Witness for `c3_groupMessage_persist_then_broadcast`: alice in "sports"
sends "hi" at time 3. -/
theorem c3_groupMessage_witness :
    groupMessage [("s1", ⟨"alice", some "sports"⟩)] ⟨[], []⟩ "s1" "hi" 3 true =
      .ok ([("s1", ⟨"alice", some "sports"⟩)],
           ⟨[⟨"alice", "sports", "hi", 3⟩], []⟩,
           [Emit.roomMessage (Target.toRoom "sports") "alice" "hi" 3]) ∧
    groupMessage [("s1", ⟨"alice", some "sports"⟩)] ⟨[], []⟩ "s1" "hi" 3 false =
      .error "StoreFailure: GroupMessage save rejected" := by
  have h := c3_groupMessage_persist_then_broadcast
    [("s1", ⟨"alice", some "sports"⟩)] ⟨[], []⟩ "s1" "hi" 3
    ⟨"alice", some "sports"⟩ "sports" rfl rfl (by decide)
  exact ⟨h.1, h.2.1⟩


/-- C5: from a registered session, `privateMessage` (with a successful save)
always appends the record `{fromUser, toUser, message, sentAt := now}` to
the History Store — whether or not the recipient displayName resolves to a
connection; live delivery happens exactly when some connected session has
that displayName, and then to the first match in registry order; and the
sender's connection always receives a self-echo of the persisted record
carrying the store-assigned timestamp, as the last emit. -/
theorem c5_privateMessage_persist_deliver_echo
    (reg : Registry) (store : Store) (cid to_user text : String) (now : Nat)
    (u : UserEntry) (h : lookup reg cid = some u) :
    storeAfter (privateMessage reg store cid to_user text now true) store =
      { store with privateMsgs := store.privateMsgs ++ [⟨u.username, to_user, text, now⟩] } ∧
    (findRecipient reg to_user = none →
      emitsOf (privateMessage reg store cid to_user text now true) =
        [Emit.privateMsg (Target.toConn cid) u.username to_user text now]) ∧
    (∀ rid, findRecipient reg to_user = some rid →
      emitsOf (privateMessage reg store cid to_user text now true) =
        [Emit.privateMsg (Target.toConn rid) u.username to_user text now,
         Emit.privateMsg (Target.toConn cid) u.username to_user text now]) ∧
    (emitsOf (privateMessage reg store cid to_user text now true)).getLast? =
      some (Emit.privateMsg (Target.toConn cid) u.username to_user text now) ∧
    (∀ pre k v post, reg = pre ++ (k, v) :: post → v.username = to_user →
      (∀ p ∈ pre, ¬(p.2.username = to_user)) →
      findRecipient reg to_user = some k) := by
  refine ⟨?_, ?_, ?_, ?_, ?_⟩
  · simp [privateMessage, h, storeAfter]
  · intro hf
    simp [privateMessage, h, hf, emitsOf]
  · intro rid hf
    simp [privateMessage, h, hf, emitsOf]
  · rcases hf : findRecipient reg to_user with _ | rid <;>
      simp [privateMessage, h, hf, emitsOf]
  · intro pre k v post hreg hv hpre
    rw [hreg]
    exact findRecipient_first hv hpre

/-- Witness for `c5_privateMessage_persist_deliver_echo`: alice messages the
offline user "bob" — persisted, no live delivery, self-echo only — at the
concrete registry `{s1 ↦ (alice, no room)}`. -/
theorem c5_privateMessage_witness :
    storeAfter (privateMessage [("s1", ⟨"alice", none⟩)] ⟨[], []⟩
        "s1" "bob" "hey" 7 true) ⟨[], []⟩ =
      ⟨[], [⟨"alice", "bob", "hey", 7⟩]⟩ ∧
    (findRecipient [("s1", ⟨"alice", none⟩)] "bob" = none →
      emitsOf (privateMessage [("s1", ⟨"alice", none⟩)] ⟨[], []⟩
          "s1" "bob" "hey" 7 true) =
        [Emit.privateMsg (Target.toConn "s1") "alice" "bob" "hey" 7]) := by
  have h := c5_privateMessage_persist_deliver_echo
    [("s1", ⟨"alice", none⟩)] ⟨[], []⟩ "s1" "bob" "hey" 7 ⟨"alice", none⟩ rfl
  exact ⟨h.1, h.2.1⟩


/-- C6: `disconnect` removes the registry entry unconditionally and is
idempotent.  Running it twice for the same connectionId: the second run
changes nothing and emits nothing; across both runs there is exactly one
`roomMessage` departure notice and exactly one `updateUsers` occupant-list
update when the session existed and had a room, and none at all when the
session was unknown or had no room. -/
theorem c6_disconnect_idempotent
    (reg : Registry) (cid : String) (now now' : Nat) :
    (disconnect (disconnect reg cid now).1 cid now').1 = (disconnect reg cid now).1 ∧
    (disconnect (disconnect reg cid now).1 cid now').2 = [] ∧
    lookup (disconnect reg cid now).1 cid = none ∧
    (∀ u r, lookup reg cid = some u → u.room = some r → ¬(r = "") →
      ((disconnect reg cid now).2 ++
        (disconnect (disconnect reg cid now).1 cid now').2).countP isRoomMessage = 1 ∧
      ((disconnect reg cid now).2 ++
        (disconnect (disconnect reg cid now).1 cid now').2).countP isOccupantUpdate = 1) ∧
    (lookup reg cid = none → (disconnect reg cid now).2 = []) ∧
    (∀ u, lookup reg cid = some u → u.room = none → (disconnect reg cid now).2 = []) := by
  have hfst : (disconnect reg cid now).1 = removeEntry reg cid := by
    simp [disconnect]
  have hlook : lookup (disconnect reg cid now).1 cid = none := by
    rw [hfst]; exact lookup_removeEntry_self reg cid
  have hsnd2 : (disconnect (disconnect reg cid now).1 cid now').2 = [] := by
    simp [disconnect, lookup_removeEntry_self]
  refine ⟨?_, hsnd2, hlook, ?_, ?_, ?_⟩
  · simp only [disconnect]
    exact removeEntry_removeEntry reg cid
  · intro u r h hr hne
    have hbe : (r == "") = false := by simp [hne]
    rw [hsnd2, List.append_nil]
    constructor <;>
      simp [disconnect, h, hr, hbe, List.countP_cons, isRoomMessage, isOccupantUpdate]
  · intro h
    simp [disconnect, h]
  · intro u h hr
    simp [disconnect, h, hr]

/-- Witness for `c6_disconnect_idempotent`: bob (in room "sports", with
alice also present) disconnects twice. -/
theorem c6_disconnect_witness :
    (disconnect (disconnect
        [("s1", ⟨"alice", some "sports"⟩), ("s2", ⟨"bob", some "sports"⟩)]
        "s2" 4).1 "s2" 9).2 = [] ∧
    ((disconnect [("s1", ⟨"alice", some "sports"⟩), ("s2", ⟨"bob", some "sports"⟩)]
        "s2" 4).2 ++
      (disconnect (disconnect
        [("s1", ⟨"alice", some "sports"⟩), ("s2", ⟨"bob", some "sports"⟩)]
        "s2" 4).1 "s2" 9).2).countP isRoomMessage = 1 := by
  have h := c6_disconnect_idempotent
    [("s1", ⟨"alice", some "sports"⟩), ("s2", ⟨"bob", some "sports"⟩)] "s2" 4 9
  exact ⟨h.2.1, (h.2.2.2.1 ⟨"bob", some "sports"⟩ "sports" rfl rfl (by decide)).1⟩


/-- C7 (amended): for `typing`/`stopTyping` from a registered session — in
room mode (no truthy `to_user`, session in a nonempty-named room) the notice
targets every occupant of the room except the sender, and the sender is
never among the delivered connections; in direct mode (truthy `to_user`) the
notice targets exactly the one resolved recipient connection (first
displayName match in registry order) and nobody else — which is the sender's
own connection only in the self-target case the counterexample exhibits —
and if the recipient does not resolve, nothing is delivered. -/
theorem c7_typing_targeting
    (reg : Registry) (cid : String) (u : UserEntry)
    (h : lookup reg cid = some u) :
    (∀ room, u.room = some room → ¬(room = "") →
      typing reg cid (some none) =
        .ok [Emit.typingNotice (Target.exceptSender room cid) u.username] ∧
      stopTyping reg cid (some none) =
        .ok [Emit.stopTypingNotice (Target.exceptSender room cid) u.username] ∧
      ¬(cid ∈ targetConns reg (Target.exceptSender room cid)) ∧
      targetConns reg (Target.exceptSender room cid) =
        (targetConns reg (Target.toRoom room)).filter (fun c => !(c == cid))) ∧
    (∀ toUser rid, ¬(toUser = "") → findRecipient reg toUser = some rid →
      typing reg cid (some (some toUser)) =
        .ok [Emit.typingNotice (Target.toConn rid) u.username] ∧
      stopTyping reg cid (some (some toUser)) =
        .ok [Emit.stopTypingNotice (Target.toConn rid) u.username] ∧
      targetConns reg (Target.toConn rid) = [rid]) ∧
    (∀ toUser, ¬(toUser = "") → findRecipient reg toUser = none →
      typing reg cid (some (some toUser)) = .ok [] ∧
      stopTyping reg cid (some (some toUser)) = .ok []) := by
  refine ⟨?_, ?_, ?_⟩
  · intro room hroom hne
    have hbe : (room == "") = false := by simp [hne]
    refine ⟨?_, ?_, not_mem_targetConns_exceptSender reg room cid, rfl⟩
    · simp [typing, h, hroom, truthyOpt, hbe]
    · simp [stopTyping, h, hroom, truthyOpt, hbe]
  · intro toUser rid hne hf
    have hbe : (toUser == "") = false := by simp [hne]
    refine ⟨?_, ?_, rfl⟩
    · simp [typing, h, hf, truthyOpt, hbe]
    · simp [stopTyping, h, hf, truthyOpt, hbe]
  · intro toUser hne hf
    have hbe : (toUser == "") = false := by simp [hne]
    constructor
    · simp [typing, h, hf, truthyOpt, hbe]
    · simp [stopTyping, h, hf, truthyOpt, hbe]

/-- Witness for `c7_typing_targeting`: alice and bob share room "sports";
alice types in room mode (notice excludes her), and types to "bob" in direct
mode (notice to bob's connection only). -/
theorem c7_typing_witness :
    typing [("s1", ⟨"alice", some "sports"⟩), ("s2", ⟨"bob", some "sports"⟩)]
        "s1" (some none) =
      .ok [Emit.typingNotice (Target.exceptSender "sports" "s1") "alice"] ∧
    ¬("s1" ∈ targetConns
        [("s1", ⟨"alice", some "sports"⟩), ("s2", ⟨"bob", some "sports"⟩)]
        (Target.exceptSender "sports" "s1")) ∧
    typing [("s1", ⟨"alice", some "sports"⟩), ("s2", ⟨"bob", some "sports"⟩)]
        "s1" (some (some "bob")) =
      .ok [Emit.typingNotice (Target.toConn "s2") "alice"] := by
  have h := c7_typing_targeting
    [("s1", ⟨"alice", some "sports"⟩), ("s2", ⟨"bob", some "sports"⟩)]
    "s1" ⟨"alice", some "sports"⟩ rfl
  have hroom := h.1 "sports" rfl (by decide)
  have hdir := h.2.1 "bob" "s2" (by decide) rfl
  exact ⟨hroom.1, hroom.2.2.1, hdir.1⟩

/-- C8 (amended): no event other than a `registerUser` ever creates a
session or changes any session's displayName: after any non-`registerUser`
handler runs, every connectionId observes either the same displayName as
before or no session at all (`disconnect` removes one). -/
theorem c8_displayName_stable_except_register
    (reg : Registry) (store : Store) (cid : String) (e : Event)
    (now : Nat) (saveOk : Bool) (c' : String)
    (hnot : ∀ un, ¬(e = Event.registerUser un)) :
    (lookup (regAfter (step reg store cid e now saveOk) reg) c').map UserEntry.username =
      (lookup reg c').map UserEntry.username ∨
    lookup (regAfter (step reg store cid e now saveOk) reg) c' = none := by
  cases e with
  | registerUser un => exact absurd rfl (hnot un)
  | joinRoom room =>
    left
    simp only [step, regAfter]
    rw [joinRoom_reg]
    rcases hl : lookup reg cid with _ | u
    · rfl
    · by_cases hc : c' = cid
      · subst hc
        rw [lookup_setRoom_self, hl]
        rfl
      · rw [lookup_setRoom_other hc]
  | leaveRoom =>
    left
    simp only [step, regAfter]
    rcases leaveRoom_reg reg cid now with he | he <;> rw [he]
    by_cases hc : c' = cid
    · subst hc
      rw [lookup_setRoom_self]
      rcases lookup reg c' with _ | u <;> rfl
    · rw [lookup_setRoom_other hc]
  | groupMessage t =>
    left
    simp only [step]
    rw [groupMessage_reg_unchanged]
  | privateMessage to_user t =>
    left
    simp only [step]
    rw [privateMessage_reg_unchanged]
  | typing d =>
    left
    simp only [step]
    rw [typing_reg_unchanged]
  | stopTyping d =>
    left
    simp only [step]
    rw [stopTyping_reg_unchanged]
  | disconnect =>
    by_cases hc : c' = cid
    · right
      subst hc
      simp only [step, regAfter, disconnect]
      exact lookup_removeEntry_self reg c'
    · left
      simp only [step, regAfter, disconnect]
      rw [lookup_removeEntry_other hc]

/-- Witness for `c8_displayName_stable_except_register`: a `joinRoom` by
alice's connection leaves her displayName as observed by lookup unchanged. -/
theorem c8_displayName_stable_witness :
    (lookup (regAfter (step [("c1", ⟨"alice", none⟩)] ⟨[], []⟩ "c1"
        (Event.joinRoom "sports") 0 true) [("c1", ⟨"alice", none⟩)]) "c1").map
        UserEntry.username =
      (lookup [("c1", ⟨"alice", none⟩)] "c1").map UserEntry.username ∨
    lookup (regAfter (step [("c1", ⟨"alice", none⟩)] ⟨[], []⟩ "c1"
        (Event.joinRoom "sports") 0 true) [("c1", ⟨"alice", none⟩)]) "c1" = none :=
  c8_displayName_stable_except_register [("c1", ⟨"alice", none⟩)] ⟨[], []⟩ "c1"
    (Event.joinRoom "sports") 0 true "c1" (fun un hh => by cases hh)


/-- C9: the private-history query route is symmetric in its two user
parameters: the `$or` filter is invariant under swapping `user1`/`user2`, so
the whole pipeline (filter, sort by `date_sent` ascending, limit 100)
returns the same sequence — hence the same set — of records. -/
theorem c9_queryPrivate_symmetric (msgs : List PrivateRecord) (user1 user2 : String) :
    queryPrivate msgs user1 user2 = queryPrivate msgs user2 user1 := by
  unfold queryPrivate
  have hpred : (fun m : PrivateRecord =>
      (m.from_user == user1 && m.to_user == user2) ||
      (m.from_user == user2 && m.to_user == user1)) =
    (fun m : PrivateRecord =>
      (m.from_user == user2 && m.to_user == user1) ||
      (m.from_user == user1 && m.to_user == user2)) := by
    funext m
    exact Bool.or_comm _ _
  rw [hpred]

/-- C10: a handler invocation by connection `cid` never touches any other
connection's registry entry: for every event and every `c' ≠ cid`, the
lookup of `c'` is unchanged by the handler (also when the handler throws,
since no handler mutates the registry before a throw). -/
theorem c10_handler_frame
    (reg : Registry) (store : Store) (cid : String) (e : Event)
    (now : Nat) (saveOk : Bool) (c' : String) (h : ¬(c' = cid)) :
    lookup (regAfter (step reg store cid e now saveOk) reg) c' = lookup reg c' := by
  cases e with
  | registerUser un =>
    simp only [step, regAfter, registerUser]
    exact lookup_setEntry_other h
  | joinRoom room =>
    simp only [step, regAfter]
    rw [joinRoom_reg]
    rcases hl : lookup reg cid with _ | u <;> simp only [hl]
    exact lookup_setRoom_other h
  | leaveRoom =>
    simp only [step, regAfter]
    rcases leaveRoom_reg reg cid now with he | he
    · rw [he]
    · rw [he]
      exact lookup_setRoom_other h
  | groupMessage t =>
    simp only [step]
    rw [groupMessage_reg_unchanged]
  | privateMessage to_user t =>
    simp only [step]
    rw [privateMessage_reg_unchanged]
  | typing d =>
    simp only [step]
    rw [typing_reg_unchanged]
  | stopTyping d =>
    simp only [step]
    rw [stopTyping_reg_unchanged]
  | disconnect =>
    simp only [step, regAfter, disconnect]
    exact lookup_removeEntry_other h

/-- Witness for `c10_handler_frame`: bob's entry is untouched by alice's
`disconnect`. -/
theorem c10_handler_frame_witness :
    lookup (regAfter (step
        [("a", ⟨"alice", some "sports"⟩), ("b", ⟨"bob", some "sports"⟩)]
        ⟨[], []⟩ "a" Event.disconnect 0 true)
        [("a", ⟨"alice", some "sports"⟩), ("b", ⟨"bob", some "sports"⟩)]) "b" =
      lookup [("a", ⟨"alice", some "sports"⟩), ("b", ⟨"bob", some "sports"⟩)] "b" :=
  c10_handler_frame
    [("a", ⟨"alice", some "sports"⟩), ("b", ⟨"bob", some "sports"⟩)]
    ⟨[], []⟩ "a" Event.disconnect 0 true "b" (by decide)

end ChatApp
